import Mathlib

/-!
A verification development for the webview service worker
(`src/vs/workbench/contrib/webview/browser/pre/service-worker.js`).

The worker brokers resource and localhost-redirect requests between sandboxed
webview clients and their controlling outer iframe.  Its central data
structure is `RequestStore`, a `Map` from composite keys
`webviewId + "@@@" + path` to entries `{resolve, promise}`.

Shallow embedding conventions used throughout this file:
* a JS `Map<string, Entry>` becomes an association list `List (String × Nat)`
  whose values are promise identifiers;
* a JS promise becomes a slot in a table `List (Nat × Option T)`:
  `none` while pending, `some v` once resolved.  JS promises are write-once:
  the first call to `resolve` wins, later calls are ignored;
* the cooperative (single-threaded, run-to-suspension) scheduler of a service
  worker is modelled by a small-step relation whose atomic steps are the
  synchronous blocks of the source between `await` points.
-/

/-! ## Definitions: the shallow embedding of the service worker -/

def resourceRoot : String := "/vscode-resource"

structure RequestStore (T : Type) where
  map : List (String × Nat)
  promises : List (Nat × Option T)
  nextId : Nat
deriving DecidableEq

def RequestStore.empty (T : Type) : RequestStore T := ⟨[], [], 0⟩

def findMap (key : String) : List (String × Nat) → Option Nat
  | [] => none
  | p :: rest => if p.1 = key then some p.2 else findMap key rest

def findProm {T : Type} (e : Nat) : List (Nat × Option T) → Option (Option T)
  | [] => none
  | p :: rest => if p.1 = e then some p.2 else findProm e rest

def settleProm {T : Type} (e : Nat) (v : T) : List (Nat × Option T) → List (Nat × Option T)
  | [] => []
  | p :: rest =>
    if p.1 = e then
      (p.1, match p.2 with | none => some v | some w => some w) :: rest
    else p :: settleProm e v rest

def RequestStore.keyOf (webviewId path : String) : String :=
  webviewId ++ "@@@" ++ path

def RequestStore.get {T : Type} (st : RequestStore T) (webviewId path : String) : Option Nat :=
  findMap (RequestStore.keyOf webviewId path) st.map

def RequestStore.create {T : Type} (st : RequestStore T) (webviewId path : String) :
    Nat × RequestStore T :=
  match st.get webviewId path with
  | some e => (e, st)
  | none =>
    (st.nextId,
      { map := st.map ++ [(RequestStore.keyOf webviewId path, st.nextId)],
        promises := st.promises ++ [(st.nextId, none)],
        nextId := st.nextId + 1 })

def RequestStore.resolve {T : Type} (st : RequestStore T) (webviewId path : String) (v : T) :
    Bool × RequestStore T :=
  match st.get webviewId path with
  | none => (false, st)
  | some e => (true, { st with promises := settleProm e v st.promises })

def RequestStore.promState {T : Type} (st : RequestStore T) (e : Nat) : Option (Option T) :=
  findProm e st.promises

structure ResourceResult (α : Type) where
  body : α
  mime : String
deriving DecidableEq

inductive RespBody (α : Type) where
  | empty
  | text (s : String)
  | data (b : α)
deriving DecidableEq

structure SwResponse (α : Type) where
  status : Nat
  body : RespBody α
  headers : List (String × String)
deriving DecidableEq

def notFoundResponse (α : Type) : SwResponse α := ⟨404, .text "Not Found", []⟩

def resolveResourceEntry (α : Type) : Option (ResourceResult α) → SwResponse α
  | none => notFoundResponse α
  | some entry => ⟨200, .data entry.body, [("Content-Type", entry.mime)]⟩

def originPatMatch : List Char → List Char → Option (List Char)
  | [], rest => some rest
  | _ :: _, [] => none
  | p :: ps, c :: cs => if p = '.' ∨ p = c then originPatMatch ps cs else none

def jsReplaceOrigin (url origin redirectOrigin : String) : String :=
  match originPatMatch origin.data url.data with
  | none => url
  | some [] => redirectOrigin
  | some ('/' :: rs) => redirectOrigin ++ "/" ++ String.mk rs
  | some (_ :: _) => url

inductive RedirectOutcome (α : Type) where
  | networkFetch
  | response (r : SwResponse α)
deriving DecidableEq

def resolveRedirect (α : Type) (requestUrl requestOrigin : String)
    (redirectOrigin : Option String) : RedirectOutcome α :=
  match redirectOrigin with
  | none => .networkFetch
  | some ro =>
    if ro = "" then .networkFetch
    else .response ⟨302, .empty, [("Location", jsReplaceOrigin requestUrl requestOrigin ro)]⟩

structure Client where
  path : String
  search : String
deriving DecidableEq

def isWordChar (c : Char) : Bool :=
  decide ('a' ≤ c ∧ c ≤ 'z') || decide ('A' ≤ c ∧ c ≤ 'Z') ||
    decide ('0' ≤ c ∧ c ≤ '9') || c == '_'

def isIdChar (c : Char) : Bool :=
  decide ('a' ≤ c ∧ c ≤ 'z') || decide ('A' ≤ c ∧ c ≤ 'Z') ||
    decide ('0' ≤ c ∧ c ≤ '9') || c == '-'

def atWordBoundary (prev next : Option Char) : Bool :=
  (match prev with | none => false | some c => isWordChar c) !=
    (match next with | none => false | some c => isWordChar c)

def litMatch : List Char → List Char → Bool
  | [], _ => true
  | _ :: _, [] => false
  | p :: ps, c :: cs => p == c && litMatch ps cs

def boundarySearch (pat : List Char) : Option Char → List Char → Bool
  | prev, [] => atWordBoundary prev none && litMatch pat []
  | prev, c :: cs =>
    (atWordBoundary prev (some c) && litMatch pat (c :: cs)) ||
      boundarySearch pat (some c) cs

def searchHasIdMatch (search webviewId : String) : Bool :=
  boundarySearch ("id=" ++ webviewId).data none search.data

def isOuterIframeCandidate (webviewId : String) (c : Client) : Bool :=
  c.path == "/" && searchHasIdMatch c.search webviewId

def getOuterIframeClient (allClients : List Client) (webviewId : String) : Option Client :=
  allClients.find? (isOuterIframeCandidate webviewId)

def idEqCi (s : List Char) : Bool :=
  match s with
  | a :: b :: c :: _ => (a == 'i' || a == 'I') && (b == 'd' || b == 'D') && c == '='
  | _ => false

def idExtract : Option Char → List Char → Option String
  | _, [] => none
  | prev, c :: cs =>
    if atWordBoundary prev (some c) && idEqCi (c :: cs) &&
        !(((c :: cs).drop 3).takeWhile isIdChar).isEmpty then
      some (String.mk (((c :: cs).drop 3).takeWhile isIdChar))
    else idExtract (some c) cs

def getWebviewIdForClient (c : Client) : Option String :=
  idExtract none c.search.data

structure StInv {T : Type} (st : RequestStore T) : Prop where
  keysNodup : (st.map.map Prod.fst).Nodup
  valsNodup : (st.map.map Prod.snd).Nodup
  mapBound : ∀ p ∈ st.map, p.2 < st.nextId
  promBound : ∀ q ∈ st.promises, q.1 < st.nextId
  mapHasProm : ∀ p ∈ st.map, (findProm p.2 st.promises).isSome

inductive Reach {T : Type} : RequestStore T → Prop where
  | empty : Reach (RequestStore.empty T)
  | create (st : RequestStore T) (wid path : String) :
      Reach st → Reach (st.create wid path).2
  | resolve (st : RequestStore T) (wid path : String) (v : T) :
      Reach st → Reach (st.resolve wid path v).2

inductive HandlerPhase (T : Type) where
  | start
  | waiting (e : Nat)
  | done (e : Nat) (v : T)
deriving DecidableEq

def phaseEntry {T : Type} : HandlerPhase T → Option Nat
  | .start => none
  | .waiting e => some e
  | .done e _ => some e

structure SysState (T : Type) where
  store : RequestStore T
  handlers : List (HandlerPhase T)
  advisories : Nat
deriving DecidableEq

def checkStep {T : Type} (wid path : String) (sys : SysState T) (i : Nat) : SysState T :=
  match sys.store.get wid path with
  | some e => { sys with handlers := sys.handlers.set i (.waiting e) }
  | none =>
    { store := (sys.store.create wid path).2,
      handlers := sys.handlers.set i (.waiting (sys.store.create wid path).1),
      advisories := sys.advisories + 1 }

def deliverStep {T : Type} (wid path : String) (sys : SysState T) (v : T) : SysState T :=
  { sys with store := (sys.store.resolve wid path v).2 }

def observeStep {T : Type} (sys : SysState T) (i e : Nat) (v : T) : SysState T :=
  { sys with handlers := sys.handlers.set i (.done e v) }

inductive SysStep {T : Type} (wid path : String) : SysState T → SysState T → Prop where
  | check (sys : SysState T) (i : Nat) (h : sys.handlers[i]? = some .start) :
      SysStep wid path sys (checkStep wid path sys i)
  | deliver (sys : SysState T) (v : T) :
      SysStep wid path sys (deliverStep wid path sys v)
  | observe (sys : SysState T) (i e : Nat) (v : T)
      (h : sys.handlers[i]? = some (.waiting e))
      (hv : sys.store.promState e = some (some v)) :
      SysStep wid path sys (observeStep sys i e v)

inductive SysReach {T : Type} (wid path : String) (init : SysState T) :
    SysState T → Prop where
  | refl : SysReach wid path init init
  | step (mid fin : SysState T) :
      SysReach wid path init mid → SysStep wid path mid fin → SysReach wid path init fin

def SysInv {T : Type} (wid path : String) (sys : SysState T) : Prop :=
  StInv sys.store ∧
    (sys.store.get wid path = none →
      sys.advisories = 0 ∧ ∀ ph ∈ sys.handlers, ph = HandlerPhase.start) ∧
    (∀ e, sys.store.get wid path = some e →
      sys.advisories = 1 ∧
        (∀ ph ∈ sys.handlers, ∀ x, phaseEntry ph = some x → x = e) ∧
        (∀ ph ∈ sys.handlers, ∀ x v, ph = HandlerPhase.done x v →
          sys.store.promState x = some (some v)))

def c1Final : SysState Nat :=
  observeStep
    (observeStep
      (deliverStep "w" "p"
        (checkStep "w" "p"
          (checkStep "w" "p"
            ⟨RequestStore.empty Nat, List.replicate 2 HandlerPhase.start, 0⟩ 0) 1) 7)
      0 0 7)
    1 0 7

structure DidLoadResourceData (α : Type) where
  path : String
  status : Nat
  data : α
  mime : String

def didLoadResource (α : Type) (sender : Client)
    (st : RequestStore (Option (ResourceResult α))) (d : DidLoadResourceData α) :
    Option (Bool × RequestStore (Option (ResourceResult α))) :=
  match getWebviewIdForClient sender with
  | none => none
  | some wid =>
    some (st.resolve wid d.path (if d.status = 200 then some ⟨d.data, d.mime⟩ else none))

def stripFirstOcc (pat : List Char) : List Char → List Char
  | [] => []
  | c :: cs =>
    if litMatch pat (c :: cs) then (c :: cs).drop pat.length
    else c :: stripFirstOcc pat cs

def stripResourceRoot (pathname : String) : String :=
  String.mk (stripFirstOcc resourceRoot.data pathname.data)

inductive ResourceFinal (α : Type) where
  | resp (r : SwResponse α)
  | crash
deriving DecidableEq

inductive OutMsg where
  | loadResource (path : String)
  | loadLocalhost (origin : String)
deriving DecidableEq

def processResourceRequest (α : Type) (innerClient : Option Client)
    (allClients : List Client) (st : RequestStore (Option (ResourceResult α)))
    (pathname : String) (eventual : Option (ResourceResult α)) :
    ResourceFinal α × RequestStore (Option (ResourceResult α)) × List OutMsg :=
  match innerClient with
  | none => (.resp (notFoundResponse α), st, [])
  | some client =>
    match getWebviewIdForClient client with
    | none => (.crash, st, [])
    | some wid =>
      match getOuterIframeClient allClients wid with
      | none => (.resp (notFoundResponse α), st, [])
      | some _ =>
        match st.get wid (stripResourceRoot pathname) with
        | some _ => (.resp (resolveResourceEntry α eventual), st, [])
        | none =>
          (.resp (resolveResourceEntry α eventual),
            (st.create wid (stripResourceRoot pathname)).2,
            [OutMsg.loadResource (stripResourceRoot pathname)])

inductive LocalhostFinal (α : Type) where
  | undefinedResult
  | crash
  | resp (r : SwResponse α)
  | outcome (o : RedirectOutcome α)
deriving DecidableEq

def processLocalhostRequest (α : Type) (innerClient : Option Client)
    (allClients : List Client) (st : RequestStore (Option String))
    (requestUrl origin : String) (eventual : Option String) :
    LocalhostFinal α × RequestStore (Option String) × List OutMsg :=
  match innerClient with
  | none => (.undefinedResult, st, [])
  | some client =>
    match getWebviewIdForClient client with
    | none => (.crash, st, [])
    | some wid =>
      match getOuterIframeClient allClients wid with
      | none => (.resp (notFoundResponse α), st, [])
      | some _ =>
        match st.get wid origin with
        | some _ => (.outcome (resolveRedirect α requestUrl origin eventual), st, [])
        | none =>
          (.outcome (resolveRedirect α requestUrl origin eventual),
            (st.create wid origin).2, [OutMsg.loadLocalhost origin])

/-! ## Theorems -/

theorem findProm_settle_self {T : Type} (e : Nat) (v : T) :
    ∀ ps : List (Nat × Option T),
      findProm e (settleProm e v ps) =
        (findProm e ps).map (fun s => match s with | none => some v | some w => some w) := by
  intro ps
  induction ps with
  | nil => rfl
  | cons p rest ih =>
    by_cases h : p.1 = e
    · simp [settleProm, findProm, h]
    · simp [settleProm, findProm, h, ih]

theorem findProm_settle_ne {T : Type} (e x : Nat) (v : T) (hne : x ≠ e) :
    ∀ ps : List (Nat × Option T), findProm x (settleProm e v ps) = findProm x ps := by
  intro ps
  induction ps with
  | nil => rfl
  | cons p rest ih =>
    by_cases h : p.1 = e
    · simp [settleProm, findProm, h, Ne.symm hne, hne]
    · by_cases hx : p.1 = x
      · simp [settleProm, findProm, h, hx, hne]
      · simp [settleProm, findProm, h, hx, ih]

theorem settle_settled_eq {T : Type} (e : Nat) (v w : T) :
    ∀ ps : List (Nat × Option T), findProm e ps = some (some w) → settleProm e v ps = ps := by
  intro ps
  induction ps with
  | nil => intro; rfl
  | cons p rest ih =>
    obtain ⟨pk, pv⟩ := p
    intro h
    by_cases hp : pk = e
    · simp [findProm, hp] at h
      simp [settleProm, hp, h]
    · simp [findProm, hp] at h
      simp [settleProm, hp, ih h]

theorem get_resolve {T : Type} (st : RequestStore T) (wid path wid' path' : String) (v : T) :
    (st.resolve wid path v).2.get wid' path' = st.get wid' path' := by
  unfold RequestStore.resolve
  cases h : st.get wid path <;> simp [RequestStore.get]

theorem resolve_found {T : Type} (st : RequestStore T) (wid path : String) (v : T) (e : Nat)
    (hget : st.get wid path = some e) :
    st.resolve wid path v = (true, { st with promises := settleProm e v st.promises }) := by
  unfold RequestStore.resolve
  rw [hget]

theorem C8_orphan_resolve_safe {T : Type} (st : RequestStore T) (wid path : String) (v : T)
    (h : st.get wid path = none) : st.resolve wid path v = (false, st) := by
  unfold RequestStore.resolve
  rw [h]

theorem C8_orphan_resolve_safe_witness :
    (RequestStore.empty Nat).get "w" "p" = none ∧
      (RequestStore.empty Nat).resolve "w" "p" 5 = (false, RequestStore.empty Nat) :=
  ⟨rfl, C8_orphan_resolve_safe (RequestStore.empty Nat) "w" "p" 5 rfl⟩

theorem C10_first_write_wins {T : Type} (st : RequestStore T) (wid path : String)
    (v1 v2 : T) (e : Nat) (hget : st.get wid path = some e)
    (hpend : st.promState e = some none) :
    (st.resolve wid path v1).1 = true ∧
      (st.resolve wid path v1).2.promState e = some (some v1) ∧
      ((st.resolve wid path v1).2.resolve wid path v2).1 = true ∧
      ((st.resolve wid path v1).2.resolve wid path v2).2 = (st.resolve wid path v1).2 ∧
      ((st.resolve wid path v1).2.resolve wid path v2).2.promState e = some (some v1) := by
  have h1 : st.resolve wid path v1 =
      (true, { st with promises := settleProm e v1 st.promises }) :=
    resolve_found st wid path v1 e hget
  have hstate : findProm e (settleProm e v1 st.promises) = some (some v1) := by
    rw [findProm_settle_self]
    unfold RequestStore.promState at hpend
    rw [hpend]
    rfl
  have hsettled : settleProm e v2 (settleProm e v1 st.promises) =
      settleProm e v1 st.promises :=
    settle_settled_eq e v2 v1 _ hstate
  have h2 : ({ st with promises := settleProm e v1 st.promises } :
      RequestStore T).resolve wid path v2 =
      (true, { st with promises := settleProm e v1 st.promises }) := by
    rw [resolve_found ({ st with promises := settleProm e v1 st.promises } :
      RequestStore T) wid path v2 e hget, hsettled]
  rw [h1]
  exact ⟨rfl, hstate, by rw [h2], by rw [h2], by rw [h2]; exact hstate⟩

theorem C10_first_write_wins_witness :
    ((RequestStore.empty Nat).create "w" "p").2.get "w" "p" = some 0 ∧
      ((RequestStore.empty Nat).create "w" "p").2.promState 0 = some none ∧
      ((((RequestStore.empty Nat).create "w" "p").2.resolve "w" "p" 7).1 = true ∧
        (((RequestStore.empty Nat).create "w" "p").2.resolve "w" "p" 7).2.promState 0 =
          some (some 7) ∧
        ((((RequestStore.empty Nat).create "w" "p").2.resolve "w" "p" 7).2.resolve
            "w" "p" 9).1 = true ∧
        ((((RequestStore.empty Nat).create "w" "p").2.resolve "w" "p" 7).2.resolve
            "w" "p" 9).2 = (((RequestStore.empty Nat).create "w" "p").2.resolve "w" "p" 7).2 ∧
        ((((RequestStore.empty Nat).create "w" "p").2.resolve "w" "p" 7).2.resolve
            "w" "p" 9).2.promState 0 = some (some 7)) :=
  ⟨by decide, by decide,
    C10_first_write_wins (((RequestStore.empty Nat).create "w" "p").2) "w" "p" 7 9 0
      (by decide) (by decide)⟩

theorem C4_materialization_round_trip (α : Type) (b : α) (m : String) :
    (resolveResourceEntry α (some ⟨b, m⟩)).status = 200 ∧
      (resolveResourceEntry α (some ⟨b, m⟩)).body = .data b ∧
      (resolveResourceEntry α (some ⟨b, m⟩)).headers = [("Content-Type", m)] ∧
      resolveResourceEntry α none = notFoundResponse α ∧
      (notFoundResponse α).status = 404 :=
  ⟨rfl, rfl, rfl, rfl, rfl⟩

theorem originPatMatch_self_append :
    ∀ l s : List Char, originPatMatch l (l ++ s) = some s := by
  intro l
  induction l with
  | nil => intro s; rfl
  | cons c cs ih => intro s; simp [originPatMatch, ih]

theorem C5_redirect_substitution (α : Type) (origin suffix ro : String)
    (hsuffix : suffix.data = [] ∨ suffix.data.head? = some '/')
    (hro : ro ≠ "") :
    resolveRedirect α (origin ++ suffix) origin (some ro) =
      .response ⟨302, .empty, [("Location", ro ++ suffix)]⟩ := by
  have hsplit : (origin ++ suffix).data = origin.data ++ suffix.data :=
    String.data_append origin suffix
  show (if ro = "" then RedirectOutcome.networkFetch else
      RedirectOutcome.response
        ⟨302, .empty, [("Location", jsReplaceOrigin (origin ++ suffix) origin ro)]⟩) =
    RedirectOutcome.response ⟨302, .empty, [("Location", ro ++ suffix)]⟩
  rw [if_neg hro]
  unfold jsReplaceOrigin
  rw [hsplit, originPatMatch_self_append]
  rcases hsuffix with hnil | hhead
  · have hsuf : suffix = "" := String.ext hnil
    subst hsuf
    show RedirectOutcome.response ⟨302, .empty, [("Location", ro)]⟩ =
      RedirectOutcome.response ⟨302, .empty, [("Location", ro ++ "")]⟩
    have hco : (ro ++ "" : String) = ro := String.ext (by rw [String.data_append]; simp)
    rw [hco]
  · rcases hd : suffix.data with _ | ⟨c, rs⟩
    · rw [hd] at hhead; simp at hhead
    · rw [hd] at hhead
      simp only [List.head?] at hhead
      have hc : c = '/' := by injection hhead
      subst hc
      show RedirectOutcome.response ⟨302, .empty,
          [("Location", ro ++ "/" ++ String.mk rs)]⟩ =
        RedirectOutcome.response ⟨302, .empty, [("Location", ro ++ suffix)]⟩
      have hloc : ro ++ "/" ++ String.mk rs = ro ++ suffix := by
        apply String.ext
        simp [String.data_append, hd]
      rw [hloc]

theorem C5_redirect_substitution_witness :
    (("/app/page?x=1" : String).data = [] ∨
        ("/app/page?x=1" : String).data.head? = some '/') ∧
      ("http://localhost:9090" : String) ≠ "" ∧
      resolveRedirect Nat "http://localhost:8080/app/page?x=1" "http://localhost:8080"
          (some "http://localhost:9090") =
        .response ⟨302, .empty, [("Location", "http://localhost:9090/app/page?x=1")]⟩ := by
  have hurl : ("http://localhost:8080/app/page?x=1" : String) =
      "http://localhost:8080" ++ "/app/page?x=1" := by decide
  have hloc : ("http://localhost:9090/app/page?x=1" : String) =
      "http://localhost:9090" ++ "/app/page?x=1" := by decide
  refine ⟨Or.inr rfl, by decide, ?_⟩
  rw [hurl, hloc]
  exact C5_redirect_substitution Nat "http://localhost:8080" "/app/page?x=1"
    "http://localhost:9090" (Or.inr rfl) (by decide)

theorem C2_counterexample :
    getOuterIframeClient [⟨"/", "?id=abcx"⟩] "abc" = some ⟨"/", "?id=abcx"⟩ ∧
      getWebviewIdForClient ⟨"/", "?id=abcx"⟩ = some "abcx" ∧
      ("abcx" : String) ≠ "abc" := by
  decide

theorem find_first_decomp {α : Type} (p : α → Bool) :
    ∀ l : List α, ∀ a, l.find? p = some a →
      ∃ l1 l2, l = l1 ++ a :: l2 ∧ ∀ x ∈ l1, p x = false := by
  intro l
  induction l with
  | nil => intro a ha; simp at ha
  | cons b rest ih =>
    intro a ha
    by_cases hb : p b
    · rw [List.find?_cons_of_pos _ hb] at ha
      injection ha with ha
      exact ⟨[], rest, by rw [ha]; rfl, by simp⟩
    · rw [List.find?_cons_of_neg _ hb] at ha
      obtain ⟨l1, l2, hsplit, hall⟩ := ih a ha
      refine ⟨b :: l1, l2, by rw [hsplit]; rfl, ?_⟩
      intro x hx
      rcases List.mem_cons.mp hx with hxb | hxl
      · subst hxb; simpa using hb
      · exact hall x hxl

theorem C2_amended_first_match (allClients : List Client) (webviewId : String) :
    (∀ c, getOuterIframeClient allClients webviewId = some c →
        isOuterIframeCandidate webviewId c = true ∧
        ∃ l1 l2, allClients = l1 ++ c :: l2 ∧
          ∀ c' ∈ l1, isOuterIframeCandidate webviewId c' = false) ∧
      (getOuterIframeClient allClients webviewId = none →
        ∀ c ∈ allClients, isOuterIframeCandidate webviewId c = false) := by
  constructor
  · intro c hc
    exact ⟨List.find?_some hc, find_first_decomp (isOuterIframeCandidate webviewId)
      allClients c hc⟩
  · intro hnone c hc
    have := List.find?_eq_none.mp hnone c hc
    simpa using this

theorem C2_amended_first_match_witness :
    isOuterIframeCandidate "abc" ⟨"/", "?id=abc"⟩ = true ∧
      ∃ l1 l2, [(⟨"/x", "?id=abc"⟩ : Client), ⟨"/", "?id=abc"⟩] =
          l1 ++ (⟨"/", "?id=abc"⟩ : Client) :: l2 ∧
        ∀ c' ∈ l1, isOuterIframeCandidate "abc" c' = false :=
  (C2_amended_first_match [⟨"/x", "?id=abc"⟩, ⟨"/", "?id=abc"⟩] "abc").1
    ⟨"/", "?id=abc"⟩ (by decide)

theorem findMap_eq_none {m : List (String × Nat)} {k : String} :
    findMap k m = none ↔ ∀ p ∈ m, p.1 ≠ k := by
  induction m with
  | nil => simp [findMap]
  | cons p rest ih =>
    by_cases h : p.1 = k
    · simp [findMap, h]
    · simp [findMap, h, ih]

theorem findMap_mem {m : List (String × Nat)} {k : String} {e : Nat}
    (h : findMap k m = some e) : (k, e) ∈ m := by
  induction m with
  | nil => simp [findMap] at h
  | cons p rest ih =>
    by_cases hp : p.1 = k
    · rw [findMap, if_pos hp] at h
      injection h with h
      have hpe : p = (k, e) := by
        rw [Prod.ext_iff]
        exact ⟨hp, h⟩
      rw [← hpe]
      exact List.mem_cons_self p rest
    · rw [findMap, if_neg hp] at h
      exact List.mem_cons_of_mem p (ih h)

theorem findMap_append_of_none {m1 m2 : List (String × Nat)} {k : String}
    (h : findMap k m1 = none) : findMap k (m1 ++ m2) = findMap k m2 := by
  induction m1 with
  | nil => rfl
  | cons p rest ih =>
    by_cases hp : p.1 = k
    · rw [findMap, if_pos hp] at h; exact absurd h (by simp)
    · rw [findMap, if_neg hp] at h
      rw [List.cons_append, findMap, if_neg hp]
      exact ih h

theorem findProm_eq_none {T : Type} {ps : List (Nat × Option T)} {x : Nat} :
    findProm x ps = none ↔ ∀ q ∈ ps, q.1 ≠ x := by
  induction ps with
  | nil => simp [findProm]
  | cons q rest ih =>
    by_cases h : q.1 = x
    · simp [findProm, h]
    · simp [findProm, h, ih]

theorem findProm_append_of_none {T : Type} {ps qs : List (Nat × Option T)} {x : Nat}
    (h : findProm x ps = none) : findProm x (ps ++ qs) = findProm x qs := by
  induction ps with
  | nil => rfl
  | cons q rest ih =>
    by_cases hq : q.1 = x
    · rw [findProm, if_pos hq] at h; exact absurd h (by simp)
    · rw [findProm, if_neg hq] at h
      rw [List.cons_append, findProm, if_neg hq]
      exact ih h

theorem findProm_append_left {T : Type} {ps qs : List (Nat × Option T)} {x : Nat}
    (h : (findProm x ps).isSome) : findProm x (ps ++ qs) = findProm x ps := by
  induction ps with
  | nil => simp [findProm] at h
  | cons q rest ih =>
    by_cases hq : q.1 = x
    · rw [List.cons_append, findProm, if_pos hq, findProm, if_pos hq]
    · rw [findProm, if_neg hq] at h
      rw [List.cons_append, findProm, if_neg hq, findProm, if_neg hq]
      exact ih h

theorem findProm_settle_isSome {T : Type} (e x : Nat) (v : T)
    (ps : List (Nat × Option T)) :
    (findProm x (settleProm e v ps)).isSome = (findProm x ps).isSome := by
  by_cases h : x = e
  · subst h
    rw [findProm_settle_self]
    cases findProm x ps <;> rfl
  · rw [findProm_settle_ne e x v h]

theorem settleProm_map_fst {T : Type} (e : Nat) (v : T) :
    ∀ ps : List (Nat × Option T), (settleProm e v ps).map Prod.fst = ps.map Prod.fst := by
  intro ps
  induction ps with
  | nil => rfl
  | cons q rest ih =>
    by_cases hq : q.1 = e
    · simp [settleProm, hq]
    · simp [settleProm, hq, ih]

theorem StInv_empty {T : Type} : StInv (RequestStore.empty T) := by
  refine ⟨?_, ?_, ?_, ?_, ?_⟩ <;> simp [RequestStore.empty]

theorem StInv_create {T : Type} (st : RequestStore T) (wid path : String)
    (h : StInv st) : StInv (st.create wid path).2 := by
  unfold RequestStore.create
  cases hget : st.get wid path with
  | some e => exact h
  | none =>
    have hkey : ∀ p ∈ st.map, p.1 ≠ RequestStore.keyOf wid path :=
      findMap_eq_none.mp hget
    show StInv (RequestStore.mk (st.map ++ [(RequestStore.keyOf wid path, st.nextId)])
      (st.promises ++ [(st.nextId, none)]) (st.nextId + 1))
    refine ⟨?_, ?_, ?_, ?_, ?_⟩ <;> dsimp only
    · rw [List.map_append, List.nodup_append]
      refine ⟨h.keysNodup, by simp, ?_⟩
      intro k hk
      simp only [List.map_cons, List.map_nil, List.mem_singleton]
      intro hk2
      obtain ⟨p, hp, hpk⟩ := List.mem_map.mp hk
      exact hkey p hp (by rw [hpk, hk2])
    · rw [List.map_append, List.nodup_append]
      refine ⟨h.valsNodup, by simp, ?_⟩
      intro x hx
      simp only [List.map_cons, List.map_nil, List.mem_singleton]
      intro hx2
      obtain ⟨p, hp, hpx⟩ := List.mem_map.mp hx
      have := h.mapBound p hp
      rw [hpx, hx2] at this
      exact absurd this (lt_irrefl _)
    · intro p hp
      rcases List.mem_append.mp hp with hp1 | hp2
      · exact Nat.lt_succ_of_lt (h.mapBound p hp1)
      · simp at hp2
        rw [hp2]
        exact Nat.lt_succ_self _
    · intro q hq
      rcases List.mem_append.mp hq with hq1 | hq2
      · exact Nat.lt_succ_of_lt (h.promBound q hq1)
      · simp at hq2
        rw [hq2]
        exact Nat.lt_succ_self _
    · intro p hp
      rcases List.mem_append.mp hp with hp1 | hp2
      · rw [findProm_append_left (h.mapHasProm p hp1)]
        exact h.mapHasProm p hp1
      · simp at hp2
        have hnone : findProm st.nextId st.promises = none := by
          rw [findProm_eq_none]
          intro q hq
          exact Nat.ne_of_lt (h.promBound q hq)
        rw [hp2]
        show (findProm st.nextId (st.promises ++ [(st.nextId, none)])).isSome = true
        rw [findProm_append_of_none hnone]
        simp [findProm]

theorem StInv_resolve {T : Type} (st : RequestStore T) (wid path : String) (v : T)
    (h : StInv st) : StInv (st.resolve wid path v).2 := by
  unfold RequestStore.resolve
  cases hget : st.get wid path with
  | none => exact h
  | some e =>
    refine ⟨h.keysNodup, h.valsNodup, h.mapBound, ?_, ?_⟩
    · intro q hq
      have : q.1 ∈ (settleProm e v st.promises).map Prod.fst := List.mem_map_of_mem _ hq
      rw [settleProm_map_fst] at this
      obtain ⟨q', hq', hqq⟩ := List.mem_map.mp this
      rw [← hqq]
      exact h.promBound q' hq'
    · intro p hp
      show (findProm p.2 (settleProm e v st.promises)).isSome
      rw [findProm_settle_isSome]
      exact h.mapHasProm p hp

theorem StInv_of_Reach {T : Type} (st : RequestStore T) (h : Reach st) : StInv st := by
  induction h with
  | empty => exact StInv_empty
  | create st wid path _ ih => exact StInv_create st wid path ih
  | resolve st wid path v _ ih => exact StInv_resolve st wid path v ih

theorem keyOf_inj_left {s1 s2 p : String}
    (h : RequestStore.keyOf s1 p = RequestStore.keyOf s2 p) : s1 = s2 := by
  unfold RequestStore.keyOf at h
  have hd : s1.data ++ ("@@@" ++ p).data = s2.data ++ ("@@@" ++ p).data := by
    have h1 := congrArg String.data h
    simpa [String.data_append, List.append_assoc] using h1
  exact String.ext (List.append_cancel_right hd)

theorem findMap_distinct_keys {m : List (String × Nat)}
    (hvals : (m.map Prod.snd).Nodup) {k1 k2 : String} {e1 e2 : Nat} (hne : k1 ≠ k2)
    (h1 : findMap k1 m = some e1) (h2 : findMap k2 m = some e2) : e1 ≠ e2 := by
  induction m with
  | nil => simp [findMap] at h1
  | cons p rest ih =>
    rw [List.map_cons, List.nodup_cons] at hvals
    obtain ⟨hhead, htail⟩ := hvals
    by_cases hk1 : p.1 = k1
    · rw [findMap, if_pos hk1] at h1
      injection h1 with h1
      have hk2 : ¬ p.1 = k2 := by rw [hk1]; exact hne
      rw [findMap, if_neg hk2] at h2
      have hmem : e2 ∈ rest.map Prod.snd :=
        List.mem_map.mpr ⟨(k2, e2), findMap_mem h2, rfl⟩
      intro he
      rw [h1, he] at hhead
      exact hhead hmem
    · rw [findMap, if_neg hk1] at h1
      by_cases hk2 : p.1 = k2
      · rw [findMap, if_pos hk2] at h2
        injection h2 with h2
        have hmem : e1 ∈ rest.map Prod.snd :=
          List.mem_map.mpr ⟨(k1, e1), findMap_mem h1, rfl⟩
        intro he
        rw [h2, ← he] at hhead
        exact hhead hmem
      · rw [findMap, if_neg hk2] at h2
        exact ih htail h1 h2

theorem C7_session_isolation {T : Type} (st : RequestStore T) (hr : Reach st)
    (s1 s2 p : String) (hne : s1 ≠ s2) (e1 e2 : Nat)
    (h1 : st.get s1 p = some e1) (h2 : st.get s2 p = some e2) :
    e1 ≠ e2 ∧
      ∀ v : T, (st.resolve s1 p v).2.get s2 p = some e2 ∧
        (st.resolve s1 p v).2.promState e2 = st.promState e2 ∧
        ∀ x, x ≠ e1 → (st.resolve s1 p v).2.promState x = st.promState x := by
  have hinv := StInv_of_Reach st hr
  have hkey : RequestStore.keyOf s1 p ≠ RequestStore.keyOf s2 p :=
    fun h => hne (keyOf_inj_left h)
  have hne12 : e1 ≠ e2 := findMap_distinct_keys hinv.valsNodup hkey h1 h2
  refine ⟨hne12, fun v => ⟨?_, ?_, ?_⟩⟩
  · rw [get_resolve]
    exact h2
  · rw [resolve_found st s1 p v e1 h1]
    show findProm e2 (settleProm e1 v st.promises) = findProm e2 st.promises
    exact findProm_settle_ne e1 e2 v (Ne.symm hne12) st.promises
  · intro x hx
    rw [resolve_found st s1 p v e1 h1]
    show findProm x (settleProm e1 v st.promises) = findProm x st.promises
    exact findProm_settle_ne e1 x v hx st.promises

theorem C7_session_isolation_witness :
    ("s1" : String) ≠ "s2" ∧
      (((RequestStore.empty Nat).create "s1" "p").2.create "s2" "p").2.get "s1" "p" =
        some 0 ∧
      (((RequestStore.empty Nat).create "s1" "p").2.create "s2" "p").2.get "s2" "p" =
        some 1 ∧
      ((0 : Nat) ≠ 1 ∧
        ∀ v : Nat,
          ((((RequestStore.empty Nat).create "s1" "p").2.create "s2" "p").2.resolve
              "s1" "p" v).2.get "s2" "p" = some 1 ∧
          ((((RequestStore.empty Nat).create "s1" "p").2.create "s2" "p").2.resolve
              "s1" "p" v).2.promState 1 =
            (((RequestStore.empty Nat).create "s1" "p").2.create "s2" "p").2.promState 1 ∧
          ∀ x, x ≠ 0 →
            ((((RequestStore.empty Nat).create "s1" "p").2.create "s2" "p").2.resolve
                "s1" "p" v).2.promState x =
              (((RequestStore.empty Nat).create "s1" "p").2.create "s2" "p").2.promState x) :=
  ⟨by decide, by decide, by decide,
    C7_session_isolation (((RequestStore.empty Nat).create "s1" "p").2.create "s2" "p").2
      (Reach.create _ "s2" "p" (Reach.create _ "s1" "p" Reach.empty))
      "s1" "s2" "p" (by decide) 0 1 (by decide) (by decide)⟩

theorem resolve_miss {T : Type} (st : RequestStore T) (wid path : String) (v : T)
    (h : st.get wid path = none) : st.resolve wid path v = (false, st) := by
  unfold RequestStore.resolve
  rw [h]

theorem create_get_self {T : Type} (st : RequestStore T) (wid path : String)
    (h : st.get wid path = none) :
    (st.create wid path).1 = st.nextId ∧
      (st.create wid path).2.get wid path = some st.nextId := by
  unfold RequestStore.create
  rw [h]
  refine ⟨rfl, ?_⟩
  show findMap (RequestStore.keyOf wid path)
    (st.map ++ [(RequestStore.keyOf wid path, st.nextId)]) = some st.nextId
  rw [findMap_append_of_none h]
  simp [findMap]

theorem findProm_settle_keeps_settled {T : Type} (e x : Nat) (v' w : T)
    (ps : List (Nat × Option T)) (h : findProm x ps = some (some w)) :
    findProm x (settleProm e v' ps) = some (some w) := by
  by_cases hx : x = e
  · subst hx
    rw [findProm_settle_self, h]
    rfl
  · rw [findProm_settle_ne e x v' hx, h]

theorem mem_of_getElem? {α : Type} {l : List α} {i : Nat} {a : α}
    (h : l[i]? = some a) : a ∈ l := by
  induction l generalizing i with
  | nil => simp at h
  | cons b rest ih =>
    cases i with
    | zero =>
      simp only [List.getElem?_cons_zero] at h
      injection h with h
      rw [← h]
      exact List.mem_cons_self b rest
    | succ j =>
      simp only [List.getElem?_cons_succ] at h
      exact List.mem_cons_of_mem b (ih h)

theorem SysInv_step {T : Type} (wid path : String) {s1 s2 : SysState T}
    (hstep : SysStep wid path s1 s2) (hinv : SysInv wid path s1) : SysInv wid path s2 := by
  obtain ⟨hstinv, hnone, hsome⟩ := hinv
  cases hstep with
  | check i h =>
    show SysInv wid path (checkStep wid path s1 i)
    unfold checkStep
    cases hget : s1.store.get wid path with
    | some e =>
      obtain ⟨hadv, hent, hdone⟩ := hsome e hget
      refine ⟨hstinv, ?_, ?_⟩
      · intro hg
        have hg2 : s1.store.get wid path = none := hg
        rw [hget] at hg2
        cases hg2
      · intro e2 hg
        have hg2 : s1.store.get wid path = some e2 := hg
        rw [hget] at hg2
        injection hg2 with hg2
        subst hg2
        refine ⟨hadv, ?_, ?_⟩
        · intro ph hph x hx
          rcases List.mem_or_eq_of_mem_set hph with hmem | heq
          · exact hent ph hmem x hx
          · subst heq
            simp only [phaseEntry] at hx
            injection hx with hx
            exact hx.symm
        · intro ph hph x v hpx
          rcases List.mem_or_eq_of_mem_set hph with hmem | heq
          · exact hdone ph hmem x v hpx
          · subst heq
            exact HandlerPhase.noConfusion hpx
    | none =>
      obtain ⟨hadv0, hall⟩ := hnone hget
      obtain ⟨hc1, hc2⟩ := create_get_self s1.store wid path hget
      refine ⟨StInv_create s1.store wid path hstinv, ?_, ?_⟩
      · intro hg
        have hg2 : (s1.store.create wid path).2.get wid path = none := hg
        rw [hc2] at hg2
        cases hg2
      · intro e2 hg
        have hg2 : (s1.store.create wid path).2.get wid path = some e2 := hg
        rw [hc2] at hg2
        injection hg2 with hg2
        refine ⟨by rw [hadv0], ?_, ?_⟩
        · intro ph hph x hx
          rcases List.mem_or_eq_of_mem_set hph with hmem | heq
          · rw [hall ph hmem] at hx
            cases hx
          · subst heq
            simp only [phaseEntry] at hx
            injection hx with hx
            rw [← hx, hc1]
            exact hg2
        · intro ph hph x v hpx
          rcases List.mem_or_eq_of_mem_set hph with hmem | heq
          · rw [hall ph hmem] at hpx
            exact HandlerPhase.noConfusion hpx
          · subst heq
            exact HandlerPhase.noConfusion hpx
  | deliver v =>
    show SysInv wid path (deliverStep wid path s1 v)
    cases hget : s1.store.get wid path with
    | none =>
      have hfix : deliverStep wid path s1 v = s1 := by
        unfold deliverStep
        rw [resolve_miss s1.store wid path v hget]
      rw [hfix]
      exact ⟨hstinv, hnone, hsome⟩
    | some e =>
      obtain ⟨hadv, hent, hdone⟩ := hsome e hget
      have hres := resolve_found s1.store wid path v e hget
      unfold deliverStep
      refine ⟨StInv_resolve s1.store wid path v hstinv, ?_, ?_⟩
      · intro hg
        have hg2 : (s1.store.resolve wid path v).2.get wid path = none := hg
        rw [get_resolve, hget] at hg2
        cases hg2
      · intro e2 hg
        have hg2 : (s1.store.resolve wid path v).2.get wid path = some e2 := hg
        rw [get_resolve, hget] at hg2
        injection hg2 with hg2
        subst hg2
        refine ⟨hadv, ?_, ?_⟩
        · intro ph hph x hx
          exact hent ph hph x hx
        · intro ph hph x v' hpx
          have hold := hdone ph hph x v' hpx
          show (s1.store.resolve wid path v).2.promState x = some (some v')
          rw [hres]
          show findProm x (settleProm e v s1.store.promises) = some (some v')
          exact findProm_settle_keeps_settled e x v v' s1.store.promises hold
  | observe i e v h hv =>
    show SysInv wid path (observeStep s1 i e v)
    cases hget : s1.store.get wid path with
    | none =>
      obtain ⟨hadv0, hall⟩ := hnone hget
      have hmem : HandlerPhase.waiting e ∈ s1.handlers := mem_of_getElem? h
      exact HandlerPhase.noConfusion (hall _ hmem)
    | some E =>
      obtain ⟨hadv, hent, hdone⟩ := hsome E hget
      refine ⟨hstinv, ?_, ?_⟩
      · intro hg
        have hg2 : s1.store.get wid path = none := hg
        rw [hget] at hg2
        cases hg2
      · intro e2 hg
        have hg2 : s1.store.get wid path = some e2 := hg
        rw [hget] at hg2
        injection hg2 with hg2
        subst hg2
        refine ⟨hadv, ?_, ?_⟩
        · intro ph hph x hx
          rcases List.mem_or_eq_of_mem_set hph with hmem | heq
          · exact hent ph hmem x hx
          · subst heq
            simp only [phaseEntry] at hx
            injection hx with hx
            rw [← hx]
            exact hent _ (mem_of_getElem? h) e rfl
        · intro ph hph x v' hpx
          rcases List.mem_or_eq_of_mem_set hph with hmem | heq
          · exact hdone ph hmem x v' hpx
          · subst heq
            injection hpx with hx hv'
            subst hx
            subst hv'
            exact hv

theorem SysInv_of_SysReach {T : Type} (wid path : String) (init sys : SysState T)
    (hini : SysInv wid path init) (hr : SysReach wid path init sys) :
    SysInv wid path sys := by
  induction hr with
  | refl => exact hini
  | step mid fin hreach hstep ih => exact SysInv_step wid path hstep ih

theorem count_key_le_one {m : List (String × Nat)} (h : (m.map Prod.fst).Nodup)
    (k : String) : (m.filter (fun b => b.1 == k)).length ≤ 1 := by
  induction m with
  | nil => simp
  | cons p rest ih =>
    rw [List.map_cons, List.nodup_cons] at h
    obtain ⟨hnot, htail⟩ := h
    by_cases hp : p.1 == k
    · have hrest : rest.filter (fun b => b.1 == k) = [] := by
        rw [List.filter_eq_nil_iff]
        intro q hq hqk
        apply hnot
        have hq1 : q.1 = k := by simpa using hqk
        have hp1 : p.1 = k := by simpa using hp
        rw [List.mem_map]
        exact ⟨q, hq, by rw [hq1, hp1]⟩
      rw [List.filter_cons, if_pos hp, hrest]
      simp
    · rw [List.filter_cons, if_neg hp]
      exact ih htail

theorem C1_dedup_single_entry {T : Type} (wid path : String) (st0 : RequestStore T)
    (hst0 : StInv st0) (h0 : st0.get wid path = none) (n : Nat) (sys : SysState T)
    (hr : SysReach wid path ⟨st0, List.replicate n HandlerPhase.start, 0⟩ sys) :
    (sys.store.map.filter (fun b => b.1 == RequestStore.keyOf wid path)).length ≤ 1 ∧
      sys.advisories ≤ 1 ∧
      (∀ ph ∈ sys.handlers, ph ≠ HandlerPhase.start → sys.advisories = 1) ∧
      (∀ ph1 ∈ sys.handlers, ∀ ph2 ∈ sys.handlers, ∀ x1 x2,
        phaseEntry ph1 = some x1 → phaseEntry ph2 = some x2 → x1 = x2) ∧
      (∀ ph1 ∈ sys.handlers, ∀ ph2 ∈ sys.handlers, ∀ x1 v1 x2 v2,
        ph1 = HandlerPhase.done x1 v1 → ph2 = HandlerPhase.done x2 v2 → v1 = v2) := by
  have hini : SysInv wid path ⟨st0, List.replicate n HandlerPhase.start, 0⟩ := by
    refine ⟨hst0, ?_, ?_⟩
    · intro _
      exact ⟨rfl, fun ph hph => List.eq_of_mem_replicate hph⟩
    · intro e he
      have he2 : st0.get wid path = some e := he
      rw [h0] at he2
      cases he2
  obtain ⟨hstinv, hnone, hsome⟩ := SysInv_of_SysReach wid path _ sys hini hr
  refine ⟨count_key_le_one hstinv.keysNodup _, ?_, ?_, ?_, ?_⟩
  · cases hget : sys.store.get wid path with
    | none => rw [(hnone hget).1]; exact Nat.zero_le 1
    | some e => rw [(hsome e hget).1]
  · intro ph hph hns
    cases hget : sys.store.get wid path with
    | none => exact absurd ((hnone hget).2 ph hph) hns
    | some e => exact (hsome e hget).1
  · intro ph1 hph1 ph2 hph2 x1 x2 hx1 hx2
    cases hget : sys.store.get wid path with
    | none =>
      rw [(hnone hget).2 ph1 hph1] at hx1
      cases hx1
    | some e =>
      obtain ⟨_, hent, _⟩ := hsome e hget
      rw [hent ph1 hph1 x1 hx1, hent ph2 hph2 x2 hx2]
  · intro ph1 hph1 ph2 hph2 x1 v1 x2 v2 h1 h2
    cases hget : sys.store.get wid path with
    | none =>
      rw [(hnone hget).2 ph1 hph1] at h1
      exact HandlerPhase.noConfusion h1
    | some e =>
      obtain ⟨_, hent, hdone⟩ := hsome e hget
      have hv1 := hdone ph1 hph1 x1 v1 h1
      have hv2 := hdone ph2 hph2 x2 v2 h2
      have hx1 : x1 = e := hent ph1 hph1 x1 (by rw [h1]; rfl)
      have hx2 : x2 = e := hent ph2 hph2 x2 (by rw [h2]; rfl)
      rw [hx1] at hv1
      rw [hx2] at hv2
      rw [hv1] at hv2
      injection hv2 with hv2
      injection hv2

theorem C1_dedup_single_entry_witness :
    (RequestStore.empty Nat).get "w" "p" = none ∧
      ((c1Final.store.map.filter (fun b => b.1 == RequestStore.keyOf "w" "p")).length ≤ 1 ∧
        c1Final.advisories ≤ 1 ∧
        (∀ ph ∈ c1Final.handlers, ph ≠ HandlerPhase.start → c1Final.advisories = 1) ∧
        (∀ ph1 ∈ c1Final.handlers, ∀ ph2 ∈ c1Final.handlers, ∀ x1 x2,
          phaseEntry ph1 = some x1 → phaseEntry ph2 = some x2 → x1 = x2) ∧
        (∀ ph1 ∈ c1Final.handlers, ∀ ph2 ∈ c1Final.handlers, ∀ x1 v1 x2 v2,
          ph1 = HandlerPhase.done x1 v1 → ph2 = HandlerPhase.done x2 v2 → v1 = v2)) :=
  ⟨rfl,
    C1_dedup_single_entry "w" "p" (RequestStore.empty Nat) StInv_empty rfl 2 c1Final
      (SysReach.step _ _
        (SysReach.step _ _
          (SysReach.step _ _
            (SysReach.step _ _
              (SysReach.step _ _ SysReach.refl (SysStep.check _ 0 (by decide)))
              (SysStep.check _ 1 (by decide)))
            (SysStep.deliver _ 7))
          (SysStep.observe _ 0 0 7 (by decide) (by decide)))
        (SysStep.observe _ 1 0 7 (by decide) (by decide)))⟩

theorem C3_counterexample :
    ((((RequestStore.empty Nat).create "w" "p").2.resolve "w" "p" 7).2.get "w" "p" =
        some 0) ∧
      ¬ ((((RequestStore.empty Nat).create "w" "p").2.resolve "w" "p" 7).2.get "w" "p" =
        none) := by
  decide

theorem checkStep_join {T : Type} (wid path : String) (sys : SysState T) (i e : Nat)
    (hget : sys.store.get wid path = some e) :
    checkStep wid path sys i = { sys with handlers := sys.handlers.set i (.waiting e) } := by
  unfold checkStep
  rw [hget]

theorem C3_amended_entry_persists {T : Type} (st : RequestStore T)
    (wid path : String) (v : T) (e : Nat) (hget : st.get wid path = some e) :
    (st.resolve wid path v).2.get wid path = some e ∧
      (∀ handlers advisories i,
        checkStep wid path ⟨(st.resolve wid path v).2, handlers, advisories⟩ i =
          ⟨(st.resolve wid path v).2, handlers.set i (HandlerPhase.waiting e),
            advisories⟩) ∧
      (st.promState e = some none →
        (st.resolve wid path v).2.promState e = some (some v)) := by
  have hg : (st.resolve wid path v).2.get wid path = some e := by
    rw [get_resolve]
    exact hget
  refine ⟨hg, ?_, ?_⟩
  · intro handlers advisories i
    exact checkStep_join wid path ⟨(st.resolve wid path v).2, handlers, advisories⟩ i e hg
  · intro hpend
    rw [resolve_found st wid path v e hget]
    show findProm e (settleProm e v st.promises) = some (some v)
    rw [findProm_settle_self]
    unfold RequestStore.promState at hpend
    rw [hpend]
    rfl

theorem C3_amended_entry_persists_witness :
    ((RequestStore.empty Nat).create "w" "p").2.get "w" "p" = some 0 ∧
      ((((RequestStore.empty Nat).create "w" "p").2.resolve "w" "p" 7).2.get "w" "p" =
          some 0 ∧
        (∀ handlers advisories i,
          checkStep "w" "p"
              ⟨(((RequestStore.empty Nat).create "w" "p").2.resolve "w" "p" 7).2,
                handlers, advisories⟩ i =
            ⟨(((RequestStore.empty Nat).create "w" "p").2.resolve "w" "p" 7).2,
              handlers.set i (HandlerPhase.waiting 0), advisories⟩) ∧
        (((RequestStore.empty Nat).create "w" "p").2.promState 0 = some none →
          (((RequestStore.empty Nat).create "w" "p").2.resolve "w" "p" 7).2.promState 0 =
            some (some 7))) :=
  ⟨by decide,
    C3_amended_entry_persists (((RequestStore.empty Nat).create "w" "p").2) "w" "p" 7 0
      (by decide)⟩

theorem C6_did_load_resource (α : Type) (sender : Client)
    (st : RequestStore (Option (ResourceResult α))) (d : DidLoadResourceData α)
    (wid : String) (hwid : getWebviewIdForClient sender = some wid) (e : Nat)
    (hget : st.get wid d.path = some e) (hpend : st.promState e = some none) :
    didLoadResource α sender st d =
        some (st.resolve wid d.path
          (if d.status = 200 then some ⟨d.data, d.mime⟩ else none)) ∧
      (st.resolve wid d.path
          (if d.status = 200 then some ⟨d.data, d.mime⟩ else none)).1 = true ∧
      (st.resolve wid d.path
          (if d.status = 200 then some ⟨d.data, d.mime⟩ else none)).2.promState e =
        some (some (if d.status = 200 then some ⟨d.data, d.mime⟩ else none)) ∧
      resolveResourceEntry α none = notFoundResponse α := by
  refine ⟨?_, ?_, ?_, rfl⟩
  · unfold didLoadResource
    rw [hwid]
  · rw [resolve_found st wid d.path _ e hget]
  · rw [resolve_found st wid d.path _ e hget]
    show findProm e (settleProm e _ st.promises) = _
    rw [findProm_settle_self]
    unfold RequestStore.promState at hpend
    rw [hpend]
    rfl

theorem C6_did_load_resource_witness :
    getWebviewIdForClient ⟨"/", "?id=s1"⟩ = some "s1" ∧
      ((RequestStore.empty (Option (ResourceResult Nat))).create "s1" "/img.png").2.get
          "s1" "/img.png" = some 0 ∧
      ((RequestStore.empty (Option (ResourceResult Nat))).create "s1" "/img.png").2.promState
          0 = some none ∧
      (didLoadResource Nat ⟨"/", "?id=s1"⟩
          ((RequestStore.empty (Option (ResourceResult Nat))).create "s1" "/img.png").2
          ⟨"/img.png", 200, 5, "image/png"⟩ =
        some (((RequestStore.empty (Option (ResourceResult Nat))).create "s1"
            "/img.png").2.resolve "s1" "/img.png"
          (if (200 : Nat) = 200 then some ⟨5, "image/png"⟩ else none)) ∧
        (((RequestStore.empty (Option (ResourceResult Nat))).create "s1"
            "/img.png").2.resolve "s1" "/img.png"
          (if (200 : Nat) = 200 then some ⟨5, "image/png"⟩ else none)).1 = true ∧
        (((RequestStore.empty (Option (ResourceResult Nat))).create "s1"
            "/img.png").2.resolve "s1" "/img.png"
          (if (200 : Nat) = 200 then some ⟨5, "image/png"⟩ else none)).2.promState 0 =
          some (some (if (200 : Nat) = 200 then some ⟨5, "image/png"⟩ else none)) ∧
        resolveResourceEntry Nat none = notFoundResponse Nat) :=
  ⟨by decide, by decide, by decide,
    C6_did_load_resource Nat ⟨"/", "?id=s1"⟩
      ((RequestStore.empty (Option (ResourceResult Nat))).create "s1" "/img.png").2
      ⟨"/img.png", 200, 5, "image/png"⟩ "s1" (by decide) 0 (by decide) (by decide)⟩

theorem C9_counterexample :
    processLocalhostRequest Nat none [] (RequestStore.empty (Option String))
        "http://localhost:8080/" "http://localhost:8080" none =
      (.undefinedResult, RequestStore.empty (Option String), []) ∧
      (LocalhostFinal.undefinedResult : LocalhostFinal Nat) ≠
        .outcome RedirectOutcome.networkFetch := by
  decide

theorem C9_unknown_peer (α : Type) (allClients : List Client)
    (st1 : RequestStore (Option (ResourceResult α))) (st2 : RequestStore (Option String))
    (pathname requestUrl origin : String) (ev1 : Option (ResourceResult α))
    (ev2 : Option String) :
    processResourceRequest α none allClients st1 pathname ev1 =
        (.resp (notFoundResponse α), st1, []) ∧
      processLocalhostRequest α none allClients st2 requestUrl origin ev2 =
        (.undefinedResult, st2, []) :=
  ⟨rfl, rfl⟩
